import Mathlib

/-!
Verification development for the auto-commit tool (src/auto-commit.py).

The script is embedded shallowly: text is modelled as `List Char`; the
pieces of Python string handling that the script uses (`str.strip`,
`str.lower`, `str.splitlines`, `file.readlines`, `re.sub` on newline runs,
substring tests) are given executable Lean definitions; the git commands the
script shells out to are modelled as operations on an explicit
`RepoState`; the generation backends, the external editor and the user are
oracles supplied as inputs; `main` is modelled as a pure function producing
a trace of observable events.
-/

set_option maxHeartbeats 1000000

/-- Characters of a string literal, the working representation of text. -/
def str (s : String) : List Char := s.data

/-- ASCII whitespace as recognised by Python `str.strip()` (the script only
ever strips model responses and console answers, for which the ASCII set is
the relevant one). -/
def isPySpace (c : Char) : Bool :=
  c = ' ' || c = '\t' || c = '\n' || c = '\r' || c = '\x0b' || c = '\x0c'

/-- Python `str.strip()`: drop leading and trailing whitespace. -/
def pyStrip (s : List Char) : List Char :=
  ((s.dropWhile isPySpace).reverse.dropWhile isPySpace).reverse

/-- Python `str.rstrip()`: drop trailing whitespace only. -/
def pyRStrip (s : List Char) : List Char :=
  (s.reverse.dropWhile isPySpace).reverse

/-- Python `str.lower()` restricted to ASCII letters (no non-ASCII character
lowercases to the ASCII letter `y` that the script compares against). -/
def pyLower (s : List Char) : List Char :=
  s.map fun c => if 'A' ≤ c ∧ c ≤ 'Z' then Char.ofNat (c.toNat + 32) else c

/-- `user_input.strip().lower() == "y"`, the affirmative-answer test used by
`prompt_to_stage` and by the final confirmation in `main`. -/
def isYes (answer : List Char) : Bool :=
  decide (pyLower (pyStrip answer) = str "y")

/-- Python `needle in haystack` on strings: substring occurrence. -/
def containsSub (needle hay : List Char) : Bool :=
  (List.range (hay.length + 1)).any fun i => needle.isPrefixOf (hay.drop i)

/-- Worker for `collapseNewlines`: `pending` counts the newlines read since
the last non-newline character; a finished run of `k` newlines is emitted as
`min k 2` newlines, which is what `re.sub` with pattern newline-times-3-or-more
and replacement of two newlines does to each maximal newline run. -/
def collapseAux : Nat → List Char → List Char
  | pending, [] => List.replicate (min pending 2) '\n'
  | pending, c :: cs =>
    if c = '\n' then collapseAux (pending + 1) cs
    else List.replicate (min pending 2) '\n' ++ c :: collapseAux 0 cs

/-- `re.sub` replacing every run of three or more newlines by exactly two
(line 199 of the script). -/
def collapseNewlines (s : List Char) : List Char := collapseAux 0 s

/-- `nlRunOk allowed s` holds when no newline run in `s` is longer than
`allowed` at the start and `2` after any non-newline character. -/
def nlRunOk : Nat → List Char → Bool
  | _, [] => true
  | allowed, c :: cs =>
    if c = '\n' then decide (0 < allowed) && nlRunOk (allowed - 1) cs
    else nlRunOk 2 cs

/-- Line-boundary characters of Python `str.splitlines`. -/
def isLineBoundary (c : Char) : Bool :=
  c = '\n' || c = '\r' || c = '\x0b' || c = '\x0c' || c = '\x1c' ||
    c = '\x1d' || c = '\x1e' || c = '\x85' || c = '\u2028' || c = '\u2029'

/-- Python `str.splitlines()`: split at line boundaries, treating a
carriage-return/newline pair as a single boundary, discarding the boundary
characters and producing no final empty line. -/
def pySplitlines : List Char → List (List Char)
  | [] => []
  | [c] => if isLineBoundary c then [[]] else [[c]]
  | c :: d :: rest =>
    if c = '\r' ∧ d = '\n' then [] :: pySplitlines rest
    else if isLineBoundary c then [] :: pySplitlines (d :: rest)
    else
      match pySplitlines (d :: rest) with
      | [] => [[c]]
      | l :: ls => (c :: l) :: ls

/-- Universal-newline translation performed by Python when reading a file in
text mode: a carriage-return/newline pair and a lone carriage return both
become a single newline. -/
def univNL : List Char → List Char
  | [] => []
  | '\r' :: '\n' :: rest => '\n' :: univNL rest
  | c :: rest => (if c = '\r' then '\n' else c) :: univNL rest

/-- Split text into lines, each line keeping its terminating newline, the
way Python `file.readlines()` partitions already-translated text. -/
def splitKeepNL : List Char → List (List Char)
  | [] => []
  | c :: rest =>
    if c = '\n' then ['\n'] :: splitKeepNL rest
    else
      match splitKeepNL rest with
      | [] => [[c]]
      | l :: ls => (c :: l) :: ls

/-- Python `f.readlines()` on a text-mode file whose raw content is `s`. -/
def readlines (s : List Char) : List (List Char) :=
  splitKeepNL (univNL s)

/-- Python `line.startswith("#")`. -/
def startsWithHash : List Char → Bool
  | [] => false
  | c :: _ => c = '#'

/-! ## Repository model

The script talks to git through GitPython. The parts of git state it reads
and mutates are modelled explicitly: `untracked` (`repo.untracked_files`),
`unstaged` (paths of `repo.index.diff(None)`: working-tree changes,
deletions included, that are not staged), `staged` (paths printed by
`git diff --cached --name-only`) and `stagedDeleted` (paths printed by
`git diff --cached --diff-filter=D --name-only`). -/

structure RepoState where
  untracked : List String
  unstaged : List String
  staged : List String
  stagedDeleted : List String
deriving DecidableEq

/-- `repo.git.add(files)`: stage exactly the named paths; a named path with
pending working-tree changes moves into the staged set, a named path with no
pending changes is a no-op. -/
def gitAdd (st : RepoState) (files : List String) : RepoState :=
  { untracked := st.untracked.filter fun p => decide (p ∉ files)
    unstaged := st.unstaged.filter fun p => decide (p ∉ files)
    staged := st.staged ++ (st.untracked ++ st.unstaged).filter fun p => decide (p ∈ files)
    stagedDeleted := st.stagedDeleted }

/-- `repo.git.add(all=True)` (git add --all): stage every pending change,
untracked and unstaged alike. -/
def gitAddAll (st : RepoState) : RepoState :=
  { untracked := []
    unstaged := []
    staged := st.staged ++ st.untracked ++ st.unstaged
    stagedDeleted := st.stagedDeleted }

/-- `prompt_to_stage(repo, files, label, add_all)` (lines 203-224): with an
empty file list it returns at once; otherwise it asks the user and, on an
affirmative answer, runs `git add --all` when `add_all` is set and
`git add files` otherwise. The console prints carry no state and are not
modelled here. -/
def prompt_to_stage (st : RepoState) (files : List String) (add_all : Bool)
    (answer : List Char) : RepoState :=
  if files = [] then st
  else if isYes answer then (if add_all then gitAddAll st else gitAdd st files)
  else st

/-- `get_staged_and_deleted_files` (lines 89-94) applied to the two
`git diff --cached` outputs: the staged list with the deleted paths filtered
out, paired with the deleted list. -/
def get_staged_and_deleted_files (staged deleted : List String) :
    List String × List String :=
  (staged.filter fun p => decide (p ∉ deleted), deleted)

/-! ## Message generation gateway -/

/-- Outcome of the provider call inside the `try` block of
`generate_commit_message` (lines 162-183): either a response text (for the
gemini branch `getattr(response, "text", "") or ""`, for the OpenAI branch
the first choice content or the empty string), or an exception carrying its
string representation. -/
inductive BackendResult
  | ok (text : List Char)
  | exn (msg : List Char)

/-- The rate-limit/quota test of line 186:
`"429" in str(exc) or "RESOURCE_EXHAUSTED" in str(exc)`. -/
def quotaMarker (msg : List Char) : Bool :=
  containsSub (str "429") msg || containsSub (str "RESOURCE_EXHAUSTED") msg

/-- The fixed fallback commit message (lines 192 and 196). -/
def fallbackMessage : List Char := str "chore: update changes"

/-- The message of the `CommitGenerationError` raised on quota exhaustion
(lines 187-190; two adjacent string literals in the source). -/
def quotaErrorText : List Char :=
  str "KI-Commit-Generierung fehlgeschlagen (429 RESOURCE_EXHAUSTED). Bitte später erneut versuchen oder das Kontingent anpassen."

/-- `generate_commit_message` (lines 131-200), with the prompt construction
and provider dispatch abstracted into the `BackendResult` oracle: a raised
exception whose text carries a quota marker becomes a fatal
`CommitGenerationError` (modelled as `Except.error`), any other exception
yields the fallback message, a successful response is stripped, replaced by
the fallback when empty, and otherwise has long newline runs collapsed. -/
def generate_commit_message (r : BackendResult) : Except (List Char) (List Char) :=
  match r with
  | .exn m =>
    if quotaMarker m then Except.error quotaErrorText
    else Except.ok fallbackMessage
  | .ok text =>
    let message := pyStrip text
    if message = [] then Except.ok fallbackMessage
    else Except.ok (collapseNewlines message)

/-! ## Commit template -/

/-- `write_commit_template` (lines 227-257) as the content written to the
scratch file: the commit message, a blank line, and the comment block
(instructions, staged paths, optionally deleted paths, then every diff line
individually prefixed with a comment marker). -/
def write_commit_template (commit_message : List Char)
    (modified_files deleted_files : List String)
    (file_diffs : List (String × List Char)) : List Char :=
  commit_message
    ++ str "\n\n# Bitte gib die Commit-Nachricht für deine Änderungen ein. Zeilen, die\n"
    ++ str "# mit # beginnen, werden ignoriert, und eine leere Nachricht bricht den Commit ab.\n"
    ++ str "#\n# Zu übernehmende Änderungen:\n"
    ++ List.flatten (modified_files.map fun f => str "#\t" ++ f.data ++ str "\n")
    ++ (if deleted_files = [] then []
        else str "#\n# Gelöschte Dateien:\n"
          ++ List.flatten (deleted_files.map fun f => str "#\t" ++ f.data ++ str " (gelöscht)\n"))
    ++ str "#\n"
    ++ List.flatten (file_diffs.map fun fd =>
        str "# Changes in " ++ fd.1.data ++ str ":\n"
          ++ List.flatten ((pySplitlines fd.2).map fun l => str "# " ++ l ++ str "\n")
          ++ str "#\n")

/-- Lines 330-334 of `main`: read the edited scratch file, drop every line
that starts with the comment marker, join the rest and strip. -/
def parse_commit_template (content : List Char) : List Char :=
  pyStrip (List.flatten ((readlines content).filter fun l => !(startsWithHash l)))

/-! ## The main pipeline

`main` (lines 260-363) is modelled as a pure function from an input record
to a trace of observable events plus bookkeeping about the scratch file.
External effects the script consumes are oracle fields of `MainInput`: the
two staging answers, whether the provider/credential checks pass, the
backend outcome, the diff text per path, what the editor turns the scratch
file into (or that it raises), the final confirmation answer, and whether
the commit and push steps raise. -/

inductive Event
  | print (s : List Char)
  | createTmp
  | callBackend
  | runEditor
  | commit
  | push
  | removeTmp
deriving DecidableEq

structure MainInput where
  st0 : RepoState
  ans1 : List Char
  ans2 : List Char
  providerOk : Bool
  credentialOk : Bool
  credentialErrorMsg : List Char
  backend : BackendResult
  diffs : String → List Char
  editorRaises : Bool
  edit : List Char → List Char
  confirmAnswer : List Char
  commitRaises : Bool
  hasOrigin : Bool
  pushRaises : Bool

structure RunResult where
  events : List Event
  tmpCreated : Bool
  tmpExistsAtEnd : Bool
  raised : Bool
deriving DecidableEq

/-- `repo.is_dirty(untracked_files=True)`: any untracked file, any
working-tree change, or any staged change. -/
def isDirty (st : RepoState) : Bool :=
  !(st.untracked.isEmpty && st.unstaged.isEmpty && st.staged.isEmpty
      && st.stagedDeleted.isEmpty)

/-- Lines 273-279: the untracked and unstaged lists are computed once from
the initial state, then the two staging prompts run in order (untracked
first, with add-all semantics). -/
def negotiatedState (inp : MainInput) : RepoState :=
  prompt_to_stage (prompt_to_stage inp.st0 inp.st0.untracked true inp.ans1)
    inp.st0.unstaged false inp.ans2

/-- Line 281: re-inspect the staged set after negotiation. -/
def stagedAfterNegotiation (inp : MainInput) : List String × List String :=
  get_staged_and_deleted_files (negotiatedState inp).staged
    (negotiatedState inp).stagedDeleted

/-- Line 282: `if not staged_files and not deleted_files`. -/
def noStagedAfter (inp : MainInput) : Bool :=
  (stagedAfterNegotiation inp).1.isEmpty && (stagedAfterNegotiation inp).2.isEmpty

/-- Lines 300-302: the diff of every staged or deleted file, in order. -/
def fileDiffsOf (inp : MainInput) : List (String × List Char) :=
  ((stagedAfterNegotiation inp).1 ++ (stagedAfterNegotiation inp).2).map
    fun f => (f, inp.diffs f)

/-- Line 316: `commit_message = commit_message or "chore: update changes"`. -/
def commitMessageAfterOr (msg : List Char) : List Char :=
  if msg = [] then fallbackMessage else msg

/-- The scratch-file content `main` writes when generation returned `msg`. -/
def templateContentOf (inp : MainInput) (msg : List Char) : List Char :=
  write_commit_template (commitMessageAfterOr msg) (stagedAfterNegotiation inp).1
    (stagedAfterNegotiation inp).2 (fileDiffsOf inp)

/-- The scratch-file content after the external editor ran on it. -/
def editedContentOf (inp : MainInput) (msg : List Char) : List Char :=
  inp.edit (templateContentOf inp msg)

def noChangesMsg : List Char := str "Keine Änderungen zum Committen."

def noStagedMsg : List Char :=
  str "Keine gestagten Änderungen gefunden. Bitte Dateien zum Committen hinzufügen."

def invalidProviderMsg : List Char :=
  str "Ungültiger Provider. Bitte \x27gemini\x27, \x27zai\x27 oder \x27openai\x27 wählen (Umgebungsvariable AI_PROVIDER oder CLI-Flag --provider)."

def emptyMsgAbort : List Char := str "Commit-Nachricht leer. Abbruch."

def commitDeclinedMsg : List Char := str "Commit abgebrochen."

def noOriginMsg : List Char :=
  str "Kein \x27origin\x27 Remote gefunden. Überspringe \x27git push\x27."

/-- The `try` body of lines 322-360, from invoking the editor onward: it can
raise (editor or commit subprocess), abort on an empty message, stop on a
declined confirmation, or commit and then push (or report a missing origin).
Returns the events of the body and whether an exception escaped it. -/
def mainBody (inp : MainInput) (msg : List Char) : List Event × Bool :=
  if inp.editorRaises then ([Event.runEditor], true)
  else
    let final := parse_commit_template (editedContentOf inp msg)
    if final = [] then ([Event.runEditor, Event.print emptyMsgAbort], false)
    else if isYes inp.confirmAnswer = false then
      ([Event.runEditor, Event.print final, Event.print commitDeclinedMsg], false)
    else if inp.commitRaises then
      ([Event.runEditor, Event.print final, Event.commit], true)
    else if inp.hasOrigin then
      ([Event.runEditor, Event.print final, Event.commit, Event.push], inp.pushRaises)
    else
      ([Event.runEditor, Event.print final, Event.commit, Event.print noOriginMsg], false)

/-- Lines 318-363 when generation produced `msg`: the scratch file is
created, the body runs under `try`, and the `finally` block removes the
scratch file whether the body finished, returned early or raised. -/
def mainWithMessage (inp : MainInput) (msg : List Char) : RunResult :=
  let body := mainBody inp msg
  { events := [Event.callBackend, Event.createTmp] ++ body.1 ++ [Event.removeTmp]
    tmpCreated := true
    tmpExistsAtEnd := false
    raised := body.2 }

/-- Lines 303-316: call the generator; a `CommitGenerationError` is printed
and ends the run before any scratch file exists. -/
def mainGeneration (inp : MainInput) : RunResult :=
  match generate_commit_message inp.backend with
  | .error e => { events := [Event.callBackend, Event.print e],
                  tmpCreated := false, tmpExistsAtEnd := false, raised := false }
  | .ok msg => mainWithMessage inp msg

/-- `main` (lines 260-363) from the dirtiness check onward. -/
def mainRun (inp : MainInput) : RunResult :=
  if isDirty inp.st0 = false then
    { events := [Event.print noChangesMsg], tmpCreated := false,
      tmpExistsAtEnd := false, raised := false }
  else if noStagedAfter inp then
    { events := [Event.print noStagedMsg], tmpCreated := false,
      tmpExistsAtEnd := false, raised := false }
  else if inp.providerOk = false then
    { events := [Event.print invalidProviderMsg], tmpCreated := false,
      tmpExistsAtEnd := false, raised := false }
  else if inp.credentialOk = false then
    { events := [Event.print inp.credentialErrorMsg], tmpCreated := false,
      tmpExistsAtEnd := false, raised := false }
  else mainGeneration inp

/-- The condition under which, according to the specification text, the
gateway is to return the fixed fallback message: a backend exception with no
quota marker, or a successful response that strips to nothing. Stated from
the specification for comparison with `generate_commit_message`. -/
def fallbackConditionSpec (r : BackendResult) : Bool :=
  match r with
  | .exn m => !(quotaMarker m)
  | .ok t => decide (pyStrip t = [])

/-! ## Newline-run lemmas -/

theorem nlRunOk_replicate (k : Nat) (hk : k ≤ 2) (t : List Char) :
    nlRunOk 2 (List.replicate k '\n' ++ t) = nlRunOk (2 - k) t := by
  interval_cases k <;> simp [nlRunOk, List.replicate]

theorem collapseAux_runOk (s : List Char) : ∀ n, nlRunOk 2 (collapseAux n s) = true := by
  induction s with
  | nil =>
    intro n
    rw [collapseAux, ← List.append_nil (List.replicate (min n 2) '\n'),
      nlRunOk_replicate _ (Nat.min_le_right n 2)]
    simp [nlRunOk]
  | cons c cs ih =>
    intro n
    rw [collapseAux]
    by_cases hc : c = '\n'
    · rw [if_pos hc]; exact ih (n + 1)
    · rw [if_neg hc, nlRunOk_replicate _ (Nat.min_le_right n 2)]
      simp only [nlRunOk, if_neg hc]
      exact ih 0

theorem collapseAux_of_runOk (s : List Char) :
    ∀ n, n ≤ 2 → nlRunOk (2 - n) s = true →
      collapseAux n s = List.replicate n '\n' ++ s := by
  induction s with
  | nil => intro n hn _; rw [collapseAux, Nat.min_eq_left hn, List.append_nil]
  | cons c cs ih =>
    intro n hn h
    rw [collapseAux]
    by_cases hc : c = '\n'
    · subst hc
      rw [if_pos rfl]
      have h' : 0 < 2 - n ∧ nlRunOk (2 - n - 1) cs = true := by
        simpa [nlRunOk] using h
      obtain ⟨h1, h2⟩ := h'
      have hn' : n + 1 ≤ 2 := by omega
      have heq : 2 - (n + 1) = 2 - n - 1 := by omega
      rw [ih (n + 1) hn' (by rw [heq]; exact h2), List.replicate_succ']
      simp
    · rw [if_neg hc, Nat.min_eq_left hn]
      have h2 : nlRunOk 2 cs = true := by
        simpa only [nlRunOk, if_neg hc] using h
      rw [ih 0 (by omega) (by simpa using h2)]
      simp

theorem collapseAux_ne_nil (s : List Char) :
    ∀ n, (s ≠ [] ∨ 0 < n) → collapseAux n s ≠ [] := by
  induction s with
  | nil =>
    intro n hn
    rcases hn with hn | hn
    · exact absurd rfl hn
    · rw [collapseAux]
      have : 0 < min n 2 := by omega
      simp [List.replicate, ← List.length_pos]
      omega
  | cons c cs ih =>
    intro n _
    rw [collapseAux]
    by_cases hc : c = '\n'
    · rw [if_pos hc]; exact ih (n + 1) (Or.inr (by omega))
    · rw [if_neg hc]
      intro habs
      rcases List.append_eq_nil.mp habs with ⟨_, h2⟩
      exact List.cons_ne_nil _ _ h2

/-- Claim C8: the newline-collapsing normalization of the generation gateway
(replacing every run of three or more consecutive newlines by exactly two,
line 199 of the script) is idempotent: applying it twice yields the same
result as applying it once, for every string. -/
theorem claim_C8_collapse_idempotent (s : List Char) :
    collapseNewlines (collapseNewlines s) = collapseNewlines s := by
  have h1 := collapseAux_runOk s 0
  have h2 := collapseAux_of_runOk (collapseAux 0 s) 0 (by omega) (by simpa using h1)
  simpa [collapseNewlines] using h2

/-! ## Inspector disjointness -/

/-- Claim C9: the two lists returned by `get_staged_and_deleted_files` are
disjoint: a path in the staged (non-deleted) list is never in the deleted
list, for every pair of git outputs. -/
theorem claim_C9_staged_deleted_disjoint (staged deleted : List String) (p : String)
    (h : p ∈ (get_staged_and_deleted_files staged deleted).1) :
    p ∉ (get_staged_and_deleted_files staged deleted).2 := by
  simp only [get_staged_and_deleted_files, List.mem_filter, decide_eq_true_eq] at h ⊢
  exact h.2

theorem claim_C9_staged_deleted_disjoint_witness :
    "a.txt" ∉ (get_staged_and_deleted_files ["a.txt", "b.txt"] ["b.txt"]).2 :=
  claim_C9_staged_deleted_disjoint ["a.txt", "b.txt"] ["b.txt"] "a.txt" (by decide)

/-! ## Generation gateway results -/

/-- Claim C10: whenever `generate_commit_message` returns normally, its
result is a non-empty string, so the additional
`commit_message or "chore: update changes"` fallback the caller applies at
line 316 is an identity there (dead code). -/
theorem claim_C10_result_nonempty (r : BackendResult) (m : List Char)
    (h : generate_commit_message r = Except.ok m) :
    m ≠ [] ∧ commitMessageAfterOr m = m := by
  have hm : m ≠ [] := by
    cases r with
    | exn e =>
      rw [generate_commit_message] at h
      by_cases hq : quotaMarker e = true
      · rw [if_pos hq] at h; exact absurd h (by simp)
      · rw [if_neg hq] at h
        have : m = fallbackMessage := by injection h with h'; exact h'.symm
        rw [this]; decide
    | ok t =>
      rw [generate_commit_message] at h
      by_cases he : pyStrip t = []
      · rw [if_pos he] at h
        have : m = fallbackMessage := by injection h with h'; exact h'.symm
        rw [this]; decide
      · rw [if_neg he] at h
        have : m = collapseNewlines (pyStrip t) := by injection h with h'; exact h'.symm
        rw [this]
        exact collapseAux_ne_nil (pyStrip t) 0 (Or.inl he)
  exact ⟨hm, by rw [commitMessageAfterOr, if_neg hm]⟩

theorem claim_C10_result_nonempty_witness :
    (str "feat: hi") ≠ [] ∧ commitMessageAfterOr (str "feat: hi") = str "feat: hi" :=
  claim_C10_result_nonempty (BackendResult.ok (str "feat: hi")) (str "feat: hi") (by rfl)

/-! ## Staging negotiation -/

/-- Claim C1 as stated is false on the code. At the change set with one
untracked file and one unstaged file, answering yes to the untracked prompt
and no to the unstaged prompt stages the unstaged file as well, because the
untracked prompt runs `git add --all`: a file of a category the user
declined ends up staged, and approving only the untracked prompt stages
more than the untracked files. -/
theorem claim_C1_staging_counterexample :
    isYes (str "y") = true ∧ isYes (str "n") = false ∧
      "m.txt" ∈ (RepoState.mk ["u.txt"] ["m.txt"] [] []).unstaged ∧
      "m.txt" ∉ (RepoState.mk ["u.txt"] ["m.txt"] [] []).untracked ∧
      "m.txt" ∈
        (prompt_to_stage
            (prompt_to_stage (RepoState.mk ["u.txt"] ["m.txt"] [] [])
              (RepoState.mk ["u.txt"] ["m.txt"] [] []).untracked true (str "y"))
            (RepoState.mk ["u.txt"] ["m.txt"] [] []).unstaged false (str "n")).staged := by
  decide

/-- Claim C1, amended: after the two staging prompts of `main` (untracked
first with add-all semantics, then unstaged), a path is staged exactly when
it was already staged, or the untracked prompt was shown (non-empty
untracked list) and approved — which, through `git add --all`, stages the
unstaged files as well, even if the unstaged prompt is later declined — or
the unstaged prompt was shown and approved and the path was unstaged. In
particular, when no unstaged files exist, approving only the untracked
prompt stages the untracked files and nothing else, declining a prompt
never by itself stages anything, and no approved category is left
unstaged. -/
theorem claim_C1_staging_characterization (st : RepoState) (a1 a2 : List Char) (p : String) :
    p ∈ (prompt_to_stage (prompt_to_stage st st.untracked true a1)
          st.unstaged false a2).staged ↔
      (p ∈ st.staged
        ∨ (st.untracked ≠ [] ∧ isYes a1 = true ∧ (p ∈ st.untracked ∨ p ∈ st.unstaged))
        ∨ (st.unstaged ≠ [] ∧ isYes a2 = true ∧ p ∈ st.unstaged)) := by
  unfold prompt_to_stage
  by_cases h1 : st.untracked = [] <;> by_cases hy1 : isYes a1 = true <;>
    by_cases h2 : st.unstaged = [] <;> by_cases hy2 : isYes a2 = true <;>
      simp [h1, hy1, h2, hy2, gitAddAll, gitAdd, List.mem_filter, List.mem_append] <;>
      tauto

/-! ## Fallback characterization -/

/-- Claim C3 as stated ("exactly when") is false on the code: when the
backend succeeds and its response text is itself the fallback string
`chore: update changes`, `generate_commit_message` returns the fallback
string although the backend neither raised nor produced an
empty/whitespace-only response. -/
theorem claim_C3_fallback_counterexample :
    generate_commit_message (BackendResult.ok (str "chore: update changes")) =
        Except.ok fallbackMessage
      ∧ fallbackConditionSpec (BackendResult.ok (str "chore: update changes")) = false :=
  ⟨by rfl, by decide⟩

/-- Claim C3, amended: `generate_commit_message` returns normally with the
fixed fallback string `chore: update changes` in exactly these cases: (a)
the backend raised an exception whose text contains no quota marker, (b)
the backend succeeded but the response strips to the empty string, or (c)
the backend succeeded and the stripped, newline-collapsed response is
itself the fallback string. Cases (a) and (b) are the ones of the claim
((a) and (b) are `fallbackConditionSpec`); in all three the function
returns `Except.ok`, so the pipeline continues instead of aborting. -/
theorem claim_C3_fallback_characterization (r : BackendResult) :
    generate_commit_message r = Except.ok fallbackMessage ↔
      (fallbackConditionSpec r = true
        ∨ ∃ t, r = BackendResult.ok t ∧ collapseNewlines (pyStrip t) = fallbackMessage) := by
  cases r with
  | exn m =>
    by_cases hq : quotaMarker m = true <;>
      simp [generate_commit_message, fallbackConditionSpec, hq]
  | ok t =>
    by_cases he : pyStrip t = [] <;>
      simp [generate_commit_message, fallbackConditionSpec, he]

/-! ## Pipeline claims -/

/-- Claim C2: a backend exception whose text contains a quota marker ("429"
or "RESOURCE_EXHAUSTED") makes `generate_commit_message` raise the fatal
`CommitGenerationError` instead of returning a fallback, and the run then
ends without creating any scratch document and without committing. -/
theorem claim_C2_quota_fatal (inp : MainInput) (m : List Char)
    (hq : quotaMarker m = true) (hb : inp.backend = BackendResult.exn m) :
    generate_commit_message inp.backend = Except.error quotaErrorText ∧
      (mainRun inp).tmpCreated = false ∧
      Event.createTmp ∉ (mainRun inp).events ∧
      Event.commit ∉ (mainRun inp).events := by
  have hgen : generate_commit_message inp.backend = Except.error quotaErrorText := by
    rw [hb, generate_commit_message, if_pos hq]
  refine ⟨hgen, ?_⟩
  unfold mainRun mainGeneration
  split_ifs <;> simp [hgen]

theorem claim_C2_quota_fatal_witness :
    quotaMarker (str "HTTP 429: rate limit") = true ∧
      generate_commit_message (BackendResult.exn (str "HTTP 429: rate limit")) =
        Except.error quotaErrorText ∧
      (mainRun (MainInput.mk (RepoState.mk ["u.txt"] [] [] []) (str "y") (str "n")
          true true [] (BackendResult.exn (str "HTTP 429: rate limit"))
          (fun _ => str "+x") false id (str "y") false false false)).tmpCreated = false ∧
      Event.createTmp ∉
        (mainRun (MainInput.mk (RepoState.mk ["u.txt"] [] [] []) (str "y") (str "n")
          true true [] (BackendResult.exn (str "HTTP 429: rate limit"))
          (fun _ => str "+x") false id (str "y") false false false)).events := by
  refine ⟨by decide, ?_⟩
  have h := claim_C2_quota_fatal
    (MainInput.mk (RepoState.mk ["u.txt"] [] [] []) (str "y") (str "n")
      true true [] (BackendResult.exn (str "HTTP 429: rate limit"))
      (fun _ => str "+x") false id (str "y") false false false)
    (str "HTTP 429: rate limit") (by decide) rfl
  exact ⟨h.1, h.2.1, h.2.2.1⟩

/-- Claim C5: when the re-inspected staged set (modified plus deleted) is
empty after the two staging prompts, the pipeline prints a user-visible
message and ends without calling the generation backend, without creating a
scratch document, and without committing. -/
theorem claim_C5_no_staged_abort (inp : MainInput)
    (hd : isDirty inp.st0 = true)
    (h1 : (stagedAfterNegotiation inp).1 = [])
    (h2 : (stagedAfterNegotiation inp).2 = []) :
    (mainRun inp).events = [Event.print noStagedMsg] ∧
      (mainRun inp).tmpCreated = false ∧
      Event.callBackend ∉ (mainRun inp).events ∧
      Event.createTmp ∉ (mainRun inp).events ∧
      Event.commit ∉ (mainRun inp).events := by
  have hns : noStagedAfter inp = true := by
    rw [noStagedAfter, h1, h2]; rfl
  unfold mainRun
  simp [hd, hns]

theorem claim_C5_no_staged_abort_witness :
    isDirty (RepoState.mk ["u.txt"] [] [] []) = true ∧
      (mainRun (MainInput.mk (RepoState.mk ["u.txt"] [] [] []) (str "n") (str "n")
          true true [] (BackendResult.ok (str "feat: x"))
          (fun _ => str "+x") false id (str "y") false false false)).events =
        [Event.print noStagedMsg] ∧
      Event.callBackend ∉
        (mainRun (MainInput.mk (RepoState.mk ["u.txt"] [] [] []) (str "n") (str "n")
          true true [] (BackendResult.ok (str "feat: x"))
          (fun _ => str "+x") false id (str "y") false false false)).events := by
  refine ⟨by decide, ?_⟩
  have h := claim_C5_no_staged_abort
    (MainInput.mk (RepoState.mk ["u.txt"] [] [] []) (str "n") (str "n")
      true true [] (BackendResult.ok (str "feat: x"))
      (fun _ => str "+x") false id (str "y") false false false)
    (by decide) (by decide) (by decide)
  exact ⟨h.1, h.2.2.1⟩

/-- Claim C7: on every execution path the scratch document does not exist
when the process ends, and on every path that reaches its creation (success,
empty-message abort, declined confirmation, or an exception while editing or
committing) a removal of the scratch document occurs: the `finally` block of
lines 361-363 runs on normal returns and on exceptions alike. -/
theorem claim_C7_cleanup (inp : MainInput) :
    (mainRun inp).tmpExistsAtEnd = false ∧
      ((mainRun inp).tmpCreated = true → Event.removeTmp ∈ (mainRun inp).events) := by
  unfold mainRun mainGeneration
  split_ifs
  · simp
  · simp
  · simp
  · simp
  · cases hgen : generate_commit_message inp.backend with
    | error e => simp
    | ok msg => simp [mainWithMessage]

theorem claim_C7_cleanup_witness :
    (mainRun (MainInput.mk (RepoState.mk ["u.txt"] [] [] []) (str "y") (str "n")
        true true [] (BackendResult.ok (str "feat: x"))
        (fun _ => str "+x") false id (str "y") false false false)).tmpCreated = true ∧
      Event.removeTmp ∈
        (mainRun (MainInput.mk (RepoState.mk ["u.txt"] [] [] []) (str "y") (str "n")
          true true [] (BackendResult.ok (str "feat: x"))
          (fun _ => str "+x") false id (str "y") false false false)).events := by
  refine ⟨by decide, ?_⟩
  exact (claim_C7_cleanup
    (MainInput.mk (RepoState.mk ["u.txt"] [] [] []) (str "y") (str "n")
      true true [] (BackendResult.ok (str "feat: x"))
      (fun _ => str "+x") false id (str "y") false false false)).2 (by decide)

theorem parse_all_hash (content : List Char)
    (h : ∀ l ∈ readlines content, startsWithHash l = true) :
    parse_commit_template content = [] := by
  rw [parse_commit_template]
  have hf : (readlines content).filter (fun l => !(startsWithHash l)) = [] := by
    rw [List.filter_eq_nil_iff]
    intro l hl
    simp [h l hl]
  rw [hf]
  rfl

/-- Claim C6: if every line of the edited scratch document starts with the
comment marker, the parsed-and-trimmed finalized message is the empty
string, and the run aborts: it prints the abort notice, performs neither the
commit nor the push, and still removes the scratch document. -/
theorem claim_C6_all_comments_abort (inp : MainInput) (msg : List Char)
    (hd : isDirty inp.st0 = true)
    (hs : noStagedAfter inp = false)
    (hp : inp.providerOk = true)
    (hc : inp.credentialOk = true)
    (hg : generate_commit_message inp.backend = Except.ok msg)
    (he : inp.editorRaises = false)
    (hall : ∀ l ∈ readlines (editedContentOf inp msg), startsWithHash l = true) :
    parse_commit_template (editedContentOf inp msg) = [] ∧
      (mainRun inp).events =
        [Event.callBackend, Event.createTmp, Event.runEditor,
          Event.print emptyMsgAbort, Event.removeTmp] ∧
      Event.commit ∉ (mainRun inp).events ∧
      Event.push ∉ (mainRun inp).events ∧
      Event.removeTmp ∈ (mainRun inp).events ∧
      (mainRun inp).tmpExistsAtEnd = false := by
  have hempty := parse_all_hash _ hall
  have hrun : mainRun inp = mainWithMessage inp msg := by
    unfold mainRun mainGeneration
    rw [hd, hs, hp, hc, hg]
    simp
  have hbody : mainBody inp msg = ([Event.runEditor, Event.print emptyMsgAbort], false) := by
    rw [mainBody, he]
    simp [hempty]
  rw [hrun, mainWithMessage, hbody]
  refine ⟨hempty, rfl, ?_, ?_, ?_, rfl⟩ <;> simp

theorem claim_C6_all_comments_abort_witness :
    parse_commit_template
        (editedContentOf
          (MainInput.mk (RepoState.mk ["u.txt"] [] [] []) (str "y") (str "n")
            true true [] (BackendResult.ok (str "feat: x"))
            (fun _ => str "+x") false (fun _ => str "# nur Kommentare\u000a#x") (str "y")
            false false false)
          (str "feat: x")) = [] ∧
      Event.commit ∉
        (mainRun (MainInput.mk (RepoState.mk ["u.txt"] [] [] []) (str "y") (str "n")
          true true [] (BackendResult.ok (str "feat: x"))
          (fun _ => str "+x") false (fun _ => str "# nur Kommentare\u000a#x") (str "y")
          false false false)).events := by
  have h := claim_C6_all_comments_abort
    (MainInput.mk (RepoState.mk ["u.txt"] [] [] []) (str "y") (str "n")
      true true [] (BackendResult.ok (str "feat: x"))
      (fun _ => str "+x") false (fun _ => str "# nur Kommentare\u000a#x") (str "y")
      false false false)
    (str "feat: x") (by decide) (by decide) rfl rfl (by rfl) rfl (by decide)
  exact ⟨h.1, h.2.2.1⟩

/-! ## Line-splitting lemmas for the template round trip -/

theorem startsWithHash_cons (c : Char) (t : List Char) :
    startsWithHash (c :: t) = decide (c = '#') := rfl

theorem splitKeepNL_cons_nl (rest : List Char) :
    splitKeepNL ('\n' :: rest) = ['\n'] :: splitKeepNL rest := by
  simp [splitKeepNL]

theorem splitKeepNL_cons_of_nil (c : Char) (rest : List Char) (hc : c ≠ '\n')
    (h : splitKeepNL rest = []) : splitKeepNL (c :: rest) = [[c]] := by
  simp only [splitKeepNL, if_neg hc, h]

theorem splitKeepNL_cons_of_cons (c : Char) (rest l : List Char) (ls : List (List Char))
    (hc : c ≠ '\n') (h : splitKeepNL rest = l :: ls) :
    splitKeepNL (c :: rest) = (c :: l) :: ls := by
  simp only [splitKeepNL, if_neg hc, h]

theorem splitKeepNL_ne_nil (c : Char) (rest : List Char) : splitKeepNL (c :: rest) ≠ [] := by
  by_cases hc : c = '\n'
  · subst hc; rw [splitKeepNL_cons_nl]; simp
  · cases h : splitKeepNL rest with
    | nil => rw [splitKeepNL_cons_of_nil c rest hc h]; simp
    | cons l ls => rw [splitKeepNL_cons_of_cons c rest l ls hc h]; simp

theorem splitKeepNL_append (a b : List Char) (ha : a.getLast? = some '\n') :
    splitKeepNL (a ++ b) = splitKeepNL a ++ splitKeepNL b := by
  induction a with
  | nil => simp at ha
  | cons c a' ih =>
    cases a' with
    | nil =>
      have hc : c = '\n' := by simpa using ha
      subst hc
      rw [List.cons_append, List.nil_append, splitKeepNL_cons_nl]
      rfl
    | cons c' a'' =>
      have ha' : (c' :: a'').getLast? = some '\n' := by
        rwa [List.getLast?_cons_cons] at ha
      have ih' := ih ha'
      by_cases hc : c = '\n'
      · subst hc
        rw [List.cons_append, splitKeepNL_cons_nl, splitKeepNL_cons_nl, ih', List.cons_append]
      · cases h : splitKeepNL (c' :: a'') with
        | nil => exact absurd h (splitKeepNL_ne_nil c' a'')
        | cons l ls =>
          have h2 : splitKeepNL ((c' :: a'') ++ b) = (l :: ls) ++ splitKeepNL b := by
            rw [ih', h]
          rw [List.cons_append,
            splitKeepNL_cons_of_cons c _ l (ls ++ splitKeepNL b) hc (by simpa using h2),
            splitKeepNL_cons_of_cons c _ l ls hc h, List.cons_append]

theorem flatten_splitKeepNL (s : List Char) : (splitKeepNL s).flatten = s := by
  induction s with
  | nil => rfl
  | cons c rest ih =>
    by_cases hc : c = '\n'
    · subst hc
      rw [splitKeepNL_cons_nl, List.flatten_cons, ih]
      rfl
    · cases h : splitKeepNL rest with
      | nil =>
        have hrest : rest = [] := by
          cases rest with
          | nil => rfl
          | cons d ds => exact absurd h (splitKeepNL_ne_nil d ds)
        subst hrest
        rw [splitKeepNL_cons_of_nil c [] hc h]
        rfl
      | cons l ls =>
        rw [splitKeepNL_cons_of_cons c rest l ls hc h, List.flatten_cons]
        rw [h, List.flatten_cons] at ih
        rw [List.cons_append, ih]

theorem splitKeepNL_hash_append_nl (m : List Char) :
    ∃ x, (splitKeepNL (m ++ ['\n'])).map startsWithHash =
        (splitKeepNL m).map startsWithHash ++ x ∧ (x = [] ∨ x = [false]) := by
  induction m with
  | nil =>
    refine ⟨[false], ?_, Or.inr rfl⟩
    rw [List.nil_append, splitKeepNL_cons_nl]
    rfl
  | cons c m' ih =>
    obtain ⟨x, hx, hx2⟩ := ih
    by_cases hc : c = '\n'
    · subst hc
      refine ⟨x, ?_, hx2⟩
      rw [List.cons_append, splitKeepNL_cons_nl, splitKeepNL_cons_nl,
        List.map_cons, List.map_cons, hx, List.cons_append]
    · cases h1 : splitKeepNL (m' ++ ['\n']) with
      | nil =>
        exfalso
        cases m' with
        | nil => exact splitKeepNL_ne_nil '\n' [] h1
        | cons d ds => exact splitKeepNL_ne_nil d (ds ++ ['\n']) h1
      | cons l ls =>
        cases h2 : splitKeepNL m' with
        | nil =>
          have hm' : m' = [] := by
            cases m' with
            | nil => rfl
            | cons d ds => exact absurd h2 (splitKeepNL_ne_nil d ds)
          subst hm'
          have h1' : splitKeepNL ([] ++ ['\n']) = [['\n']] := by
            rw [List.nil_append, splitKeepNL_cons_nl]; rfl
          rw [h1'] at h1
          injection h1 with hl hls
          subst hl; subst hls
          refine ⟨[], ?_, Or.inl rfl⟩
          rw [List.cons_append, List.nil_append,
            splitKeepNL_cons_of_cons c ['\n'] ['\n'] [] hc h1',
            splitKeepNL_cons_of_nil c [] hc h2]
          simp [startsWithHash_cons]
        | cons l1 ls1 =>
          rw [h1, h2, List.map_cons, List.map_cons] at hx
          rw [List.cons_append] at hx
          injection hx with hhead htail
          refine ⟨x, ?_, hx2⟩
          rw [List.cons_append,
            splitKeepNL_cons_of_cons c (m' ++ ['\n']) l ls hc h1,
            splitKeepNL_cons_of_cons c m' l1 ls1 hc h2,
            List.map_cons, List.map_cons, List.cons_append, htail,
            startsWithHash_cons, startsWithHash_cons]

theorem splitKeepNL_noHash_append_nl (m : List Char)
    (h : ∀ l ∈ splitKeepNL m, startsWithHash l = false) :
    ∀ l ∈ splitKeepNL (m ++ ['\n']), startsWithHash l = false := by
  intro l hl
  obtain ⟨x, hx, hx2⟩ := splitKeepNL_hash_append_nl m
  have hmem : startsWithHash l ∈ (splitKeepNL (m ++ ['\n'])).map startsWithHash :=
    List.mem_map_of_mem startsWithHash hl
  rw [hx] at hmem
  rcases List.mem_append.mp hmem with hm | hm
  · obtain ⟨l', hl', he⟩ := List.mem_map.mp hm
    rw [← he]; exact h l' hl'
  · rcases hx2 with rfl | rfl
    · simp at hm
    · simpa using hm

/-! ## Hash-comment chunks -/

/-- Text that is a sequence of newline-terminated lines, each starting with
the comment marker and free of inner newlines and carriage returns. -/
def hashChunk (s : List Char) : Prop :=
  ∃ ls : List (List Char), s = (ls.map (fun l => l ++ ['\n'])).flatten ∧
    ∀ l ∈ ls, startsWithHash l = true ∧ '\n' ∉ l ∧ '\r' ∉ l

theorem hashChunk_nil : hashChunk [] := ⟨[], rfl, by simp⟩

theorem hashChunk_single (l : List Char) (h1 : startsWithHash l = true)
    (h2 : '\n' ∉ l) (h3 : '\r' ∉ l) : hashChunk (l ++ ['\n']) :=
  ⟨[l], by simp, by simp [h1, h2, h3]⟩

theorem hashChunk_append (a b : List Char) (ha : hashChunk a) (hb : hashChunk b) :
    hashChunk (a ++ b) := by
  obtain ⟨ls1, rfl, h1⟩ := ha
  obtain ⟨ls2, rfl, h2⟩ := hb
  refine ⟨ls1 ++ ls2, by simp, ?_⟩
  intro l hl
  rcases List.mem_append.mp hl with h | h
  exacts [h1 l h, h2 l h]

theorem hashChunk_flatten {α : Type} (xs : List α) (g : α → List Char)
    (h : ∀ x ∈ xs, hashChunk (g x)) : hashChunk (xs.map g).flatten := by
  induction xs with
  | nil => exact hashChunk_nil
  | cons x xs ih =>
    rw [List.map_cons, List.flatten_cons]
    exact hashChunk_append _ _ (h x (by simp)) (ih fun y hy => h y (by simp [hy]))

theorem hashChunk_no_cr (s : List Char) (h : hashChunk s) : '\r' ∉ s := by
  obtain ⟨ls, rfl, hls⟩ := h
  intro hmem
  obtain ⟨t, ht, hct⟩ := List.mem_flatten.mp hmem
  obtain ⟨l, hl, rfl⟩ := List.mem_map.mp ht
  rcases List.mem_append.mp hct with h | h
  · exact (hls l hl).2.2 h
  · simp at h

theorem startsWithHash_append (l t : List Char) (h : startsWithHash l = true) :
    startsWithHash (l ++ t) = true := by
  cases l with
  | nil => simp [startsWithHash] at h
  | cons c l' => simpa [startsWithHash_cons] using h

theorem splitKeepNL_single_line (l : List Char) (h : '\n' ∉ l) :
    splitKeepNL (l ++ ['\n']) = [l ++ ['\n']] := by
  induction l with
  | nil => rw [List.nil_append, splitKeepNL_cons_nl]; rfl
  | cons c l' ih =>
    have hc : c ≠ '\n' := fun hc => h (by simp [hc])
    have hl' : '\n' ∉ l' := fun hm => h (by simp [hm])
    rw [List.cons_append,
      splitKeepNL_cons_of_cons c (l' ++ ['\n']) (l' ++ ['\n']) [] hc (ih hl')]

theorem hashChunk_lines (s : List Char) (h : hashChunk s) :
    ∀ l ∈ splitKeepNL s, startsWithHash l = true := by
  obtain ⟨ls, rfl, hls⟩ := h
  revert hls
  induction ls with
  | nil => intro _; simp [splitKeepNL]
  | cons l0 ls' ih =>
    intro hls
    rw [List.map_cons, List.flatten_cons,
      splitKeepNL_append _ _ (by rw [List.getLast?_concat]),
      splitKeepNL_single_line l0 (hls l0 (by simp)).2.1]
    intro l hl
    rcases List.mem_append.mp hl with hm | hm
    · rw [List.mem_singleton] at hm
      subst hm
      exact startsWithHash_append l0 ['\n'] (hls l0 (by simp)).1
    · exact ih (fun x hx => hls x (by simp [hx])) l hm

theorem univNL_id (s : List Char) (h : '\r' ∉ s) : univNL s = s := by
  induction s using univNL.induct with
  | case1 => rfl
  | case2 rest ih => exact absurd (List.mem_cons_self '\r' ('\n' :: rest)) h
  | case3 c rest h0 ih =>
    have hc : c ≠ '\r' := fun hcc => h (by simp [hcc])
    rw [univNL.eq_3 c rest h0, if_neg hc, ih fun hm => h (by simp [hm])]

theorem pySplitlines_no_boundary (s : List Char) :
    ∀ l ∈ pySplitlines s, ∀ c ∈ l, isLineBoundary c = false := by
  induction s using pySplitlines.induct with
  | case1 => simp [pySplitlines]
  | case2 c hb => simp [pySplitlines, hb]
  | case3 c hb =>
    intro l hl d hd
    simp [pySplitlines, hb] at hl
    subst hl
    rw [List.mem_singleton] at hd
    subst hd
    exact Bool.not_eq_true _ ▸ hb
  | case4 c d rest hcd ih =>
    intro l hl e he
    obtain ⟨rfl, rfl⟩ := hcd
    simp only [pySplitlines, and_self, if_true] at hl
    rcases List.mem_cons.mp hl with rfl | hl
    · simp at he
    · exact ih l hl e he
  | case5 c d rest hcd hb ih =>
    intro l hl e he
    simp only [pySplitlines, if_neg hcd, if_pos hb] at hl
    rcases List.mem_cons.mp hl with rfl | hl
    · simp at he
    · exact ih l hl e he
  | case6 c d rest hcd hb hnil ih =>
    intro l hl e he
    simp only [pySplitlines, if_neg hcd, if_neg hb, hnil] at hl
    rw [List.mem_singleton] at hl
    subst hl
    rw [List.mem_singleton] at he
    subst he
    exact Bool.not_eq_true _ ▸ hb
  | case7 c d rest hcd hb l0 ls0 hcons ih =>
    intro l hl e he
    simp only [pySplitlines, if_neg hcd, if_neg hb, hcons] at hl
    rcases List.mem_cons.mp hl with rfl | hl
    · rcases List.mem_cons.mp he with rfl | he
      · exact Bool.not_eq_true _ ▸ hb
      · exact ih l0 (by rw [hcons]; simp) e he
    · exact ih l (by rw [hcons]; simp [hl]) e he

theorem pySplitlines_no_nl_cr (d : List Char) :
    ∀ l ∈ pySplitlines d, '\n' ∉ l ∧ '\r' ∉ l := by
  intro l hl
  constructor <;> intro hm
  · have := pySplitlines_no_boundary d l hl '\n' hm
    simp [isLineBoundary] at this
  · have := pySplitlines_no_boundary d l hl '\r' hm
    simp [isLineBoundary] at this

/-! ## The comment block of the template is a hash chunk -/

/-- Everything `write_commit_template` writes after the commit message and
the separating blank line. -/
def templateComments (modified_files deleted_files : List String)
    (file_diffs : List (String × List Char)) : List Char :=
  str "# Bitte gib die Commit-Nachricht für deine Änderungen ein. Zeilen, die\n"
    ++ str "# mit # beginnen, werden ignoriert, und eine leere Nachricht bricht den Commit ab.\n"
    ++ str "#\n# Zu übernehmende Änderungen:\n"
    ++ List.flatten (modified_files.map fun f => str "#\t" ++ f.data ++ str "\n")
    ++ (if deleted_files = [] then []
        else str "#\n# Gelöschte Dateien:\n"
          ++ List.flatten (deleted_files.map fun f => str "#\t" ++ f.data ++ str " (gelöscht)\n"))
    ++ str "#\n"
    ++ List.flatten (file_diffs.map fun fd =>
        str "# Changes in " ++ fd.1.data ++ str ":\n"
          ++ List.flatten ((pySplitlines fd.2).map fun l => str "# " ++ l ++ str "\n")
          ++ str "#\n")

theorem write_commit_template_decomp (m : List Char) (mod del : List String)
    (fd : List (String × List Char)) :
    write_commit_template m mod del fd =
      (m ++ str "\n\n") ++ templateComments mod del fd := by
  rw [write_commit_template, templateComments,
    show str "\n\n# Bitte gib die Commit-Nachricht für deine Änderungen ein. Zeilen, die\n"
        = str "\n\n"
          ++ str "# Bitte gib die Commit-Nachricht für deine Änderungen ein. Zeilen, die\n"
      from by decide]
  simp only [List.append_assoc]

theorem hashChunk_line (a : List Char) (h1 : startsWithHash a = true)
    (h2 : '\n' ∉ a) (h3 : '\r' ∉ a) (b : List Char) (hb : b = a ++ ['\n']) :
    hashChunk b := hb ▸ hashChunk_single a h1 h2 h3

theorem templateComments_chunk (mod del : List String) (fd : List (String × List Char))
    (hmod : ∀ f ∈ mod, '\n' ∉ f.data ∧ '\r' ∉ f.data)
    (hdel : ∀ f ∈ del, '\n' ∉ f.data ∧ '\r' ∉ f.data)
    (hfd : ∀ p ∈ fd, '\n' ∉ p.1.data ∧ '\r' ∉ p.1.data) :
    hashChunk (templateComments mod del fd) := by
  rw [templateComments]
  refine hashChunk_append _ _ (hashChunk_append _ _ (hashChunk_append _ _
    (hashChunk_append _ _ (hashChunk_append _ _ (hashChunk_append _ _ ?_ ?_) ?_) ?_) ?_)
    ?_) ?_
  · exact hashChunk_line
      (str "# Bitte gib die Commit-Nachricht für deine Änderungen ein. Zeilen, die")
      (by decide) (by decide) (by decide) _ (by decide)
  · exact hashChunk_line
      (str "# mit # beginnen, werden ignoriert, und eine leere Nachricht bricht den Commit ab.")
      (by decide) (by decide) (by decide) _ (by decide)
  · rw [show str "#\n# Zu übernehmende Änderungen:\n"
        = (str "#" ++ ['\n']) ++ (str "# Zu übernehmende Änderungen:" ++ ['\n'])
      from by decide]
    exact hashChunk_append _ _
      (hashChunk_single _ (by decide) (by decide) (by decide))
      (hashChunk_single _ (by decide) (by decide) (by decide))
  · refine hashChunk_flatten mod _ fun f hf => ?_
    refine hashChunk_line (str "#\t" ++ f.data)
      (startsWithHash_append _ _ (by decide))
      (List.not_mem_append (by decide) (hmod f hf).1)
      (List.not_mem_append (by decide) (hmod f hf).2)
      _ ?_
    rw [List.append_assoc]
    rfl
  · by_cases hd : del = []
    · rw [if_pos hd]; exact hashChunk_nil
    · rw [if_neg hd]
      refine hashChunk_append _ _ ?_ (hashChunk_flatten del _ fun f hf => ?_)
      · rw [show str "#\n# Gelöschte Dateien:\n"
            = (str "#" ++ ['\n']) ++ (str "# Gelöschte Dateien:" ++ ['\n'])
          from by decide]
        exact hashChunk_append _ _
          (hashChunk_single _ (by decide) (by decide) (by decide))
          (hashChunk_single _ (by decide) (by decide) (by decide))
      · refine hashChunk_line (str "#\t" ++ f.data ++ str " (gelöscht)")
          (startsWithHash_append _ _ (startsWithHash_append _ _ (by decide)))
          (List.not_mem_append (List.not_mem_append (by decide) (hdel f hf).1) (by decide))
          (List.not_mem_append (List.not_mem_append (by decide) (hdel f hf).2) (by decide))
          _ ?_
        rw [show str " (gelöscht)\n" = str " (gelöscht)" ++ ['\n'] from by decide,
          ← List.append_assoc]
  · exact hashChunk_line (str "#") (by decide) (by decide) (by decide) _ (by decide)
  · refine hashChunk_flatten fd _ fun p hp => ?_
    refine hashChunk_append _ _ (hashChunk_append _ _ ?_
      (hashChunk_flatten (pySplitlines p.2) _ fun l hl => ?_)) ?_
    · refine hashChunk_line (str "# Changes in " ++ p.1.data ++ str ":")
        (startsWithHash_append _ _ (startsWithHash_append _ _ (by decide)))
        (List.not_mem_append (List.not_mem_append (by decide) (hfd p hp).1) (by decide))
        (List.not_mem_append (List.not_mem_append (by decide) (hfd p hp).2) (by decide))
        _ ?_
      rw [show str ":\n" = str ":" ++ ['\n'] from by decide, ← List.append_assoc]
    · refine hashChunk_line (str "# " ++ l)
        (startsWithHash_append _ _ (by decide))
        (List.not_mem_append (by decide) (pySplitlines_no_nl_cr p.2 l hl).1)
        (List.not_mem_append (by decide) (pySplitlines_no_nl_cr p.2 l hl).2)
        _ ?_
      rw [List.append_assoc]
      rfl
    · exact hashChunk_line (str "#") (by decide) (by decide) (by decide) _ (by decide)

/-! ## Stripping the separating blank line -/

theorem dropWhile_all_append (p : Char → Bool) (a b : List Char)
    (h : ∀ c ∈ a, p c = true) : (a ++ b).dropWhile p = b.dropWhile p := by
  induction a with
  | nil => rfl
  | cons c a' ih =>
    rw [List.cons_append, List.dropWhile_cons, if_pos (h c (by simp))]
    exact ih fun d hd => h d (by simp [hd])

theorem pyStrip_append_nlnl (s : List Char) :
    pyStrip (s ++ str "\n\n") = pyStrip s := by
  rw [pyStrip, pyStrip]
  by_cases h : s.dropWhile isPySpace = []
  · have h2 : (s ++ str "\n\n").dropWhile isPySpace = [] := by
      rw [List.dropWhile_append, h]
      decide
    rw [h, h2]
  · have hd : (s ++ str "\n\n").dropWhile isPySpace
        = s.dropWhile isPySpace ++ str "\n\n" := by
      rw [List.dropWhile_append, if_neg (by simpa [List.isEmpty_iff] using h)]
    rw [hd, List.reverse_append,
      dropWhile_all_append isPySpace ((str "\n\n").reverse) _ (by decide)]

/-! ## The template round trip -/

/-- Claim C4 as stated is false on the code. For the generated message
`a`-newline-`#b`, whose second line starts with the comment marker, writing
the template and re-parsing it unchanged drops that line: the parse returns
`a`, which differs from the original message even modulo trailing
whitespace. -/
theorem claim_C4_roundtrip_counterexample :
    parse_commit_template (write_commit_template (str "a\n#b") ["f"] [] [("f", str "+x")])
        = str "a"
      ∧ pyRStrip (str "a\n#b") = str "a\n#b"
      ∧ str "a" ≠ str "a\n#b" :=
  ⟨by decide, by decide, by decide⟩

/-- Claim C4, amended: for every generated commit message none of whose
lines starts with the comment marker and which contains no carriage return,
and for all path lists and diff mappings whose path names contain no newline
or carriage return, writing the commit template and re-parsing it unchanged
(dropping every line that starts with the comment marker, joining the rest,
trimming) yields exactly the original message modulo leading and trailing
whitespace (and messages produced by `generate_commit_message` are already
stripped, so for them it is the message itself). -/
theorem claim_C4_roundtrip_amended (msg : List Char) (mod del : List String)
    (fd : List (String × List Char))
    (hmsg : ∀ l ∈ splitKeepNL msg, startsWithHash l = false)
    (hcr : '\r' ∉ msg)
    (hmod : ∀ f ∈ mod, '\n' ∉ f.data ∧ '\r' ∉ f.data)
    (hdel : ∀ f ∈ del, '\n' ∉ f.data ∧ '\r' ∉ f.data)
    (hfd : ∀ p ∈ fd, '\n' ∉ p.1.data ∧ '\r' ∉ p.1.data) :
    parse_commit_template (write_commit_template msg mod del fd) = pyStrip msg := by
  have hchunk := templateComments_chunk mod del fd hmod hdel hfd
  rw [parse_commit_template, write_commit_template_decomp, readlines]
  have hnocr : '\r' ∉ (msg ++ str "\n\n") ++ templateComments mod del fd :=
    List.not_mem_append (List.not_mem_append hcr (by decide)) (hashChunk_no_cr _ hchunk)
  rw [univNL_id _ hnocr]
  have hlast : (msg ++ str "\n\n").getLast? = some '\n' := by
    rw [show str "\n\n" = ['\n'] ++ ['\n'] from by decide, ← List.append_assoc,
      List.getLast?_concat]
  rw [splitKeepNL_append _ _ hlast, List.filter_append]
  have hcomments : (splitKeepNL (templateComments mod del fd)).filter
      (fun l => !(startsWithHash l)) = [] := by
    rw [List.filter_eq_nil_iff]
    intro l hl
    simp [hashChunk_lines _ hchunk l hl]
  have hkeep : (splitKeepNL (msg ++ str "\n\n")).filter (fun l => !(startsWithHash l))
      = splitKeepNL (msg ++ str "\n\n") := by
    rw [List.filter_eq_self]
    intro l hl
    have hfalse : startsWithHash l = false := by
      have step1 := splitKeepNL_noHash_append_nl msg hmsg
      have step2 := splitKeepNL_noHash_append_nl (msg ++ ['\n']) step1
      rw [show str "\n\n" = ['\n'] ++ ['\n'] from by decide,
        ← List.append_assoc] at hl
      exact step2 l hl
    simp [hfalse]
  rw [hcomments, hkeep, List.append_nil, flatten_splitKeepNL, pyStrip_append_nlnl]

theorem claim_C4_roundtrip_amended_witness :
    parse_commit_template (write_commit_template (str "feat: add hello") ["a.txt"] []
        [("a.txt", str "+hello")]) = pyStrip (str "feat: add hello") :=
  claim_C4_roundtrip_amended (str "feat: add hello") ["a.txt"] [] [("a.txt", str "+hello")]
    (by decide) (by decide) (by decide) (by decide) (by decide)
